import Mathlib

/-!
Verification of the LibreCrawl session-registry / lifecycle core (src/main.py)
against its natural-language specification.

The development shallowly embeds the registry core of src/main.py:

* the module-level dict `crawler_instances` (line 145) becomes an association
  list from session ids to entries, with Python `d[k] = v` / `del d[k]` /
  `k in d` semantics given by dictSet / dictDel / dictGet;
* `datetime.now()` becomes an explicit clock value (a Nat, measured in
  seconds, so that `timedelta(hours=1)` is 3600);
* `WebCrawler()` / `SettingsManager(...)` constructions are given fresh
  numeric identities drawn from a counter, and every `WebCrawler()`
  construction is recorded in an audit log so that "exactly one engine is
  constructed" is a statement about the run, not about the final state;
* code paths guarded by `with instances_lock` execute atomically, so a
  concurrent history is a sequence of whole critical sections; the embedding
  therefore models sequences of operations.

`src/crawler.py` and `src/crawl_db.py` are not part of the given sources;
where a claim depends on them the corresponding definition is modelled from
the spec and says so in its doc comment.
-/

/-- Python dict read `m[k]` / `m.get(k)`: first binding for the key wins
(association lists built by dictSet have unique keys anyway). -/
def dictGet {β : Type} (sid : String) : List (String × β) → Option β
  | [] => none
  | (k, v) :: rest => if k = sid then some v else dictGet sid rest

/-- Python dict write `m[k] = v`: replace the binding in place, or append a
new binding when the key is absent. -/
def dictSet {β : Type} (sid : String) (v : β) : List (String × β) → List (String × β)
  | [] => [(sid, v)]
  | (k, w) :: rest => if k = sid then (k, v) :: rest else (k, w) :: dictSet sid v rest

/-- Python dict delete `del m[k]`: drop the binding for the key. -/
def dictDel {β : Type} (sid : String) : List (String × β) → List (String × β)
  | [] => []
  | (k, w) :: rest => if k = sid then rest else (k, w) :: dictDel sid rest

/-- Keys of the dict are pairwise distinct (always true of a Python dict;
an explicit hypothesis here because the embedding uses association lists). -/
abbrev nodupKeys {β : Type} (m : List (String × β)) : Prop :=
  (m.map Prod.fst).Nodup

/-- Python truthiness of an optional integer (`if user_id:`,
`if crawler.crawl_id:`): `None` and `0` are falsy. -/
def pyTruthy : Option Nat → Bool
  | none => false
  | some n => decide (n ≠ 0)

/-- One value of the dict `crawler_instances` (src/main.py line 145):
a Python dict literal with keys `crawler`, `settings`, `last_accessed`
(lines 162-166 and 187-191).  Each field is optional because a Python dict
value carries only the keys it was given; claim C10 is precisely that all
three are always present. -/
structure PyEntry where
  crawler : Option Nat
  settings : Option Nat
  last_accessed : Option Nat
deriving DecidableEq, Repr

/-- State of the registry module: the `crawler_instances` map, a counter
supplying identities for newly constructed `WebCrawler()` /
`SettingsManager(...)` objects, and an audit log recording every
`WebCrawler()` construction as (session id, crawler identity). -/
structure RegState where
  instances : List (String × PyEntry)
  nextId : Nat
  constructions : List (String × Nat)
deriving DecidableEq, Repr

def initRegState : RegState := { instances := [], nextId := 0, constructions := [] }

/-- src/main.py lines 148-171, the body under `with instances_lock`:
if the session id is absent, construct a `WebCrawler()` (identity `nextId`)
and a `SettingsManager` (identity `nextId + 1`) and bind them together with
`last_accessed = datetime.now()`; otherwise refresh `last_accessed`.
Returns the new state and `crawler_instances[session_id]['crawler']`. -/
def get_or_create_crawler (s : RegState) (sid : String) (now : Nat) :
    RegState × Option Nat :=
  match dictGet sid s.instances with
  | none =>
      let e : PyEntry :=
        { crawler := some s.nextId, settings := some (s.nextId + 1),
          last_accessed := some now }
      ({ instances := dictSet sid e s.instances,
         nextId := s.nextId + 2,
         constructions := s.constructions ++ [(sid, s.nextId)] }, e.crawler)
  | some e =>
      let e' := { e with last_accessed := some now }
      ({ s with instances := dictSet sid e' s.instances }, e'.crawler)

/-- src/main.py lines 173-196: identical creation/refresh logic, but the
function returns `crawler_instances[session_id]['settings']`.  The absent
branch also constructs a `WebCrawler()` (line 188), which is what makes the
entry fully initialized whichever accessor runs first. -/
def get_session_settings (s : RegState) (sid : String) (now : Nat) :
    RegState × Option Nat :=
  match dictGet sid s.instances with
  | none =>
      let e : PyEntry :=
        { crawler := some s.nextId, settings := some (s.nextId + 1),
          last_accessed := some now }
      ({ instances := dictSet sid e s.instances,
         nextId := s.nextId + 2,
         constructions := s.constructions ++ [(sid, s.nextId)] }, e.settings)
  | some e =>
      let e' := { e with last_accessed := some now }
      ({ s with instances := dictSet sid e' s.instances }, e'.settings)

/-- One serialized critical section against the registry: a call to one of
the two accessors, tagged with the session id it resolves and the value of
`datetime.now()` at that call. -/
inductive AccessOp where
  | crawler (sid : String) (now : Nat)
  | settings (sid : String) (now : Nat)
deriving DecidableEq, Repr

def AccessOp.sid : AccessOp → String
  | .crawler s _ => s
  | .settings s _ => s

def AccessOp.now : AccessOp → Nat
  | .crawler _ n => n
  | .settings _ n => n

/-- State effect of one accessor call. -/
def applyAccess (s : RegState) : AccessOp → RegState
  | .crawler sid now => (get_or_create_crawler s sid now).1
  | .settings sid now => (get_session_settings s sid now).1

/-- Value returned by one accessor call. -/
def accessReturn (s : RegState) : AccessOp → Option Nat
  | .crawler sid now => (get_or_create_crawler s sid now).2
  | .settings sid now => (get_session_settings s sid now).2

/-- Run a sequence of accessor calls from a given state. -/
def runFrom (s : RegState) : List AccessOp → RegState
  | [] => s
  | op :: rest => runFrom (applyAccess s op) rest

/-- Run a sequence of accessor calls from the initial (empty) registry. -/
def runAccess (ops : List AccessOp) : RegState := runFrom initRegState ops

/-- Whether some call in the sequence addresses the given session id. -/
def accessedIn : List AccessOp → String → Bool
  | [], _ => false
  | op :: rest, sid => decide (op.sid = sid) || accessedIn rest sid

/-- Number of `WebCrawler()` constructions the audit log attributes to a
session id. -/
def countFor : List (String × Nat) → String → Nat
  | [], _ => 0
  | c :: rest, sid => (if c.1 = sid then 1 else 0) + countFor rest sid

/-- src/main.py lines 206: the eviction test
`now - instance_data['last_accessed'] > timeout` with `timeout =
timedelta(hours=1)` (3600 seconds).  The `none` branch is unreachable in a
run of the program (claim C10): every entry carries `last_accessed`. -/
def idleOver (now : Nat) (e : PyEntry) : Bool :=
  match e.last_accessed with
  | some t => decide (3600 < now - t)
  | none => false

/-- src/main.py lines 198-219 (`cleanup_old_instances`), the body under
`with instances_lock`: collect the session ids whose idle time exceeds one
hour, then for each collected id call `crawler.stop_crawl()` inside
`try/except: pass` (so a raising stop is swallowed) and `del` the entry.
`stopRaises` is the opaque engine behaviour: whether the stop call raises.
Returns the new map and the log of (session id, stop succeeded) outcomes;
the map does not depend on the stop outcomes because the bare `except`
discards them. -/
def cleanup_old_instances (stopRaises : String → Bool) (now : Nat)
    (m : List (String × PyEntry)) :
    List (String × PyEntry) × List (String × Bool) :=
  let sessions_to_remove := (m.filter fun p => idleOver now p.2).map Prod.fst
  (sessions_to_remove.foldl (fun acc sid => dictDel sid acc) m,
   sessions_to_remove.map fun sid => (sid, !stopRaises sid))

/-! ### Association-list (Python dict) lemmas -/

theorem dictGet_dictSet_self {β : Type} (k : String) (v : β) (m : List (String × β)) :
    dictGet k (dictSet k v m) = some v := by
  induction m with
  | nil => simp [dictGet, dictSet]
  | cons a rest ih =>
      obtain ⟨a1, a2⟩ := a
      by_cases h : a1 = k
      · simp [dictGet, dictSet, h]
      · simp [dictGet, dictSet, h, ih]

theorem dictGet_dictSet_ne {β : Type} {k k' : String} (v : β) (m : List (String × β))
    (h : k' ≠ k) : dictGet k' (dictSet k v m) = dictGet k' m := by
  induction m with
  | nil => simp [dictGet, dictSet, if_neg (Ne.symm h)]
  | cons a rest ih =>
      obtain ⟨a1, a2⟩ := a
      by_cases ha : a1 = k
      · subst ha
        simp [dictGet, dictSet, if_neg (Ne.symm h)]
      · by_cases hb : a1 = k'
        · simp [dictGet, dictSet, ha, hb, h]
        · simp [dictGet, dictSet, ha, hb, ih]

theorem dictGet_dictDel_ne {β : Type} {k k' : String} (m : List (String × β))
    (h : k' ≠ k) : dictGet k' (dictDel k m) = dictGet k' m := by
  induction m with
  | nil => simp [dictDel]
  | cons a rest ih =>
      obtain ⟨a1, a2⟩ := a
      by_cases ha : a1 = k
      · subst ha
        simp [dictDel, dictGet, if_neg (Ne.symm h)]
      · by_cases hb : a1 = k'
        · simp [dictDel, dictGet, ha, hb, h]
        · simp [dictDel, dictGet, ha, hb, ih]

theorem mapFst_dictDel_subset {β : Type} {k x : String} {m : List (String × β)}
    (h : x ∈ (dictDel k m).map Prod.fst) : x ∈ m.map Prod.fst := by
  induction m with
  | nil => simp [dictDel] at h
  | cons a rest ih =>
      obtain ⟨a1, a2⟩ := a
      by_cases ha : a1 = k
      · simp only [dictDel, if_pos ha] at h
        simp only [List.map_cons, List.mem_cons]
        exact Or.inr h
      · simp only [dictDel, if_neg ha, List.map_cons, List.mem_cons] at h
        rcases h with h | h
        · simp [h]
        · simp only [List.map_cons, List.mem_cons]
          exact Or.inr (ih h)

theorem nodupKeys_dictDel {β : Type} {k : String} {m : List (String × β)}
    (h : nodupKeys m) : nodupKeys (dictDel k m) := by
  induction m with
  | nil => simpa [dictDel] using h
  | cons a rest ih =>
      obtain ⟨a1, a2⟩ := a
      rw [nodupKeys, List.map_cons, List.nodup_cons] at h
      by_cases ha : a1 = k
      · simp only [dictDel, if_pos ha]
        exact h.2
      · rw [nodupKeys, dictDel, if_neg ha, List.map_cons, List.nodup_cons]
        exact ⟨fun hx => h.1 (mapFst_dictDel_subset hx), ih h.2⟩

theorem dictGet_eq_none_of_not_mem {β : Type} {k : String} {m : List (String × β)}
    (h : k ∉ m.map Prod.fst) : dictGet k m = none := by
  induction m with
  | nil => simp [dictGet]
  | cons a rest ih =>
      obtain ⟨a1, a2⟩ := a
      simp only [List.map_cons, List.mem_cons] at h
      push_neg at h
      rw [dictGet, if_neg (Ne.symm h.1)]
      exact ih h.2

theorem dictGet_eq_none_iff {β : Type} {k : String} {m : List (String × β)} :
    dictGet k m = none ↔ k ∉ m.map Prod.fst := by
  constructor
  · intro h hmem
    induction m with
    | nil => simp at hmem
    | cons a rest ih =>
        obtain ⟨a1, a2⟩ := a
        simp only [List.map_cons, List.mem_cons] at hmem
        by_cases ha : a1 = k
        · rw [dictGet, if_pos ha] at h
          exact Option.noConfusion h
        · rw [dictGet, if_neg ha] at h
          rcases hmem with hmem | hmem
          · exact ha hmem.symm
          · exact ih h hmem
  · exact dictGet_eq_none_of_not_mem

theorem dictGet_mem {β : Type} {k : String} {v : β} {m : List (String × β)}
    (h : dictGet k m = some v) : (k, v) ∈ m := by
  induction m with
  | nil => simp [dictGet] at h
  | cons a rest ih =>
      obtain ⟨a1, a2⟩ := a
      by_cases ha : a1 = k
      · rw [dictGet, if_pos ha] at h
        subst ha
        cases h
        exact List.mem_cons_self _ _
      · rw [dictGet, if_neg ha] at h
        exact List.mem_cons_of_mem _ (ih h)

theorem dictGet_of_mem {β : Type} {k : String} {v : β} {m : List (String × β)}
    (hnd : nodupKeys m) (h : (k, v) ∈ m) : dictGet k m = some v := by
  induction m with
  | nil => simp at h
  | cons a rest ih =>
      obtain ⟨a1, a2⟩ := a
      rw [nodupKeys, List.map_cons, List.nodup_cons] at hnd
      rcases List.mem_cons.mp h with h | h
      · cases h
        simp [dictGet]
      · have ha : a1 ≠ k := by
          intro hh
          subst hh
          exact hnd.1 (by simpa using List.mem_map_of_mem Prod.fst h)
        rw [dictGet, if_neg ha]
        exact ih hnd.2 h

theorem dictGet_dictDel_self {β : Type} {k : String} {m : List (String × β)}
    (h : nodupKeys m) : dictGet k (dictDel k m) = none := by
  induction m with
  | nil => simp [dictDel, dictGet]
  | cons a rest ih =>
      obtain ⟨a1, a2⟩ := a
      rw [nodupKeys, List.map_cons, List.nodup_cons] at h
      by_cases ha : a1 = k
      · rw [dictDel, if_pos ha]
        subst ha
        rw [dictGet_eq_none_of_not_mem h.1]
      · rw [dictDel, if_neg ha, dictGet, if_neg ha]
        exact ih h.2

theorem dictGet_dictSet_cases {β : Type} {k k' : String} {v w : β} {m : List (String × β)}
    (h : dictGet k' (dictSet k v m) = some w) :
    (k' = k ∧ w = v) ∨ (k' ≠ k ∧ dictGet k' m = some w) := by
  by_cases hk : k' = k
  · subst hk
    rw [dictGet_dictSet_self] at h
    cases h
    exact Or.inl ⟨rfl, rfl⟩
  · rw [dictGet_dictSet_ne _ _ hk] at h
    exact Or.inr ⟨hk, h⟩

/-! ### Registry run lemmas (claims C1 and C10) -/

theorem countFor_append (l1 l2 : List (String × Nat)) (sid : String) :
    countFor (l1 ++ l2) sid = countFor l1 sid + countFor l2 sid := by
  induction l1 with
  | nil => simp [countFor]
  | cons a rest ih => simp [countFor, ih, Nat.add_assoc]

theorem runFrom_append (s : RegState) (l1 l2 : List AccessOp) :
    runFrom s (l1 ++ l2) = runFrom (runFrom s l1) l2 := by
  induction l1 generalizing s with
  | nil => simp [runFrom]
  | cons op rest ih => simp [runFrom, ih]

theorem applyAccess_absent (s : RegState) (op : AccessOp)
    (h : dictGet op.sid s.instances = none) :
    applyAccess s op =
      { instances := dictSet op.sid
          ⟨some s.nextId, some (s.nextId + 1), some op.now⟩ s.instances,
        nextId := s.nextId + 2,
        constructions := s.constructions ++ [(op.sid, s.nextId)] } := by
  cases op with
  | crawler sid now =>
      simp only [AccessOp.sid] at h
      simp [applyAccess, get_or_create_crawler, h, AccessOp.sid, AccessOp.now]
  | settings sid now =>
      simp only [AccessOp.sid] at h
      simp [applyAccess, get_session_settings, h, AccessOp.sid, AccessOp.now]

theorem applyAccess_present (s : RegState) (op : AccessOp) (e : PyEntry)
    (h : dictGet op.sid s.instances = some e) :
    applyAccess s op =
      { s with instances :=
          dictSet op.sid { e with last_accessed := some op.now } s.instances } := by
  cases op with
  | crawler sid now =>
      simp only [AccessOp.sid] at h
      simp [applyAccess, get_or_create_crawler, h, AccessOp.sid, AccessOp.now]
  | settings sid now =>
      simp only [AccessOp.sid] at h
      simp [applyAccess, get_session_settings, h, AccessOp.sid, AccessOp.now]

theorem dictGet_applyAccess_self_absent (s : RegState) (op : AccessOp)
    (h : dictGet op.sid s.instances = none) :
    dictGet op.sid (applyAccess s op).instances
      = some ⟨some s.nextId, some (s.nextId + 1), some op.now⟩ := by
  rw [applyAccess_absent s op h]
  exact dictGet_dictSet_self _ _ _

theorem dictGet_applyAccess_self_present (s : RegState) (op : AccessOp) (e : PyEntry)
    (h : dictGet op.sid s.instances = some e) :
    dictGet op.sid (applyAccess s op).instances
      = some { e with last_accessed := some op.now } := by
  rw [applyAccess_present s op e h]
  exact dictGet_dictSet_self _ _ _

theorem dictGet_applyAccess_ne (s : RegState) (op : AccessOp) (sid : String)
    (hs : sid ≠ op.sid) :
    dictGet sid (applyAccess s op).instances = dictGet sid s.instances := by
  cases hop : dictGet op.sid s.instances with
  | none =>
      rw [applyAccess_absent s op hop]
      exact dictGet_dictSet_ne _ _ hs
  | some w =>
      rw [applyAccess_present s op w hop]
      exact dictGet_dictSet_ne _ _ hs

theorem countFor_applyAccess (s : RegState) (op : AccessOp) (sid : String) :
    countFor (applyAccess s op).constructions sid =
      countFor s.constructions sid +
        (if dictGet op.sid s.instances = none then (if op.sid = sid then 1 else 0) else 0) := by
  cases hop : dictGet op.sid s.instances with
  | none =>
      rw [applyAccess_absent s op hop]
      simp [countFor_append, countFor]
  | some w =>
      rw [applyAccess_present s op w hop]
      simp

theorem runFrom_present_stable (ops : List AccessOp) :
    ∀ (s : RegState) (sid : String) (e : PyEntry),
    dictGet sid s.instances = some e →
    ∃ e2, dictGet sid (runFrom s ops).instances = some e2
      ∧ e2.crawler = e.crawler ∧ e2.settings = e.settings := by
  induction ops with
  | nil => exact fun s sid e h => ⟨e, h, rfl, rfl⟩
  | cons op rest ih =>
      intro s sid e h
      rw [runFrom]
      by_cases hs : sid = op.sid
      · have h2 : dictGet sid (applyAccess s op).instances
            = some { e with last_accessed := some op.now } := by
          rw [hs]
          exact dictGet_applyAccess_self_present s op e (hs ▸ h)
        obtain ⟨e2, he2, hc, hsn⟩ := ih _ sid _ h2
        exact ⟨e2, he2, hc, hsn⟩
      · have h2 : dictGet sid (applyAccess s op).instances = some e := by
          rw [dictGet_applyAccess_ne s op sid hs]
          exact h
        exact ih _ sid e h2

theorem runFrom_isSome (ops : List AccessOp) :
    ∀ (s : RegState) (sid : String), dictGet sid s.instances = none →
    (dictGet sid (runFrom s ops).instances).isSome = accessedIn ops sid := by
  induction ops with
  | nil => intro s sid h; simp [runFrom, accessedIn, h]
  | cons op rest ih =>
      intro s sid h
      rw [runFrom]
      by_cases hs : op.sid = sid
      · have h2 : dictGet sid (applyAccess s op).instances
            = some ⟨some s.nextId, some (s.nextId + 1), some op.now⟩ := by
          rw [← hs]
          exact dictGet_applyAccess_self_absent s op (by rw [hs]; exact h)
        obtain ⟨e2, he2, _, _⟩ := runFrom_present_stable rest _ sid _ h2
        simp [he2, accessedIn, hs]
      · have h2 : dictGet sid (applyAccess s op).instances = none := by
          rw [dictGet_applyAccess_ne s op sid (fun hh => hs hh.symm)]
          exact h
        rw [ih _ sid h2]
        simp [accessedIn, hs]

theorem runFrom_count_present (ops : List AccessOp) :
    ∀ (s : RegState) (sid : String) (e : PyEntry),
    dictGet sid s.instances = some e →
    countFor (runFrom s ops).constructions sid = countFor s.constructions sid := by
  induction ops with
  | nil => intro s sid e _; rfl
  | cons op rest ih =>
      intro s sid e h
      rw [runFrom]
      by_cases hs : sid = op.sid
      · have h2 : dictGet sid (applyAccess s op).instances
            = some { e with last_accessed := some op.now } := by
          rw [hs]
          exact dictGet_applyAccess_self_present s op e (hs ▸ h)
        rw [ih _ sid _ h2, countFor_applyAccess s op sid]
        rw [hs] at h
        simp [h]
      · have h2 : dictGet sid (applyAccess s op).instances = some e := by
          rw [dictGet_applyAccess_ne s op sid hs]
          exact h
        rw [ih _ sid _ h2, countFor_applyAccess s op sid]
        have : (if op.sid = sid then (1 : Nat) else 0) = 0 :=
          if_neg (fun hh => hs hh.symm)
        cases hop : dictGet op.sid s.instances <;> simp [this]

theorem runFrom_count_absent (ops : List AccessOp) :
    ∀ (s : RegState) (sid : String), dictGet sid s.instances = none →
    countFor (runFrom s ops).constructions sid =
      countFor s.constructions sid + (if accessedIn ops sid then 1 else 0) := by
  induction ops with
  | nil => intro s sid _; simp [runFrom, accessedIn]
  | cons op rest ih =>
      intro s sid h
      rw [runFrom]
      by_cases hs : op.sid = sid
      · have h0 : dictGet op.sid s.instances = none := by rw [hs]; exact h
        have h2 : dictGet sid (applyAccess s op).instances
            = some ⟨some s.nextId, some (s.nextId + 1), some op.now⟩ := by
          rw [← hs]
          exact dictGet_applyAccess_self_absent s op h0
        rw [runFrom_count_present rest _ sid _ h2, countFor_applyAccess s op sid]
        simp [h0, hs, h, accessedIn]
      · have h2 : dictGet sid (applyAccess s op).instances = none := by
          rw [dictGet_applyAccess_ne s op sid (fun hh => hs hh.symm)]
          exact h
        rw [ih _ sid h2, countFor_applyAccess s op sid]
        have hz : (if op.sid = sid then (1 : Nat) else 0) = 0 := if_neg hs
        cases hop : dictGet op.sid s.instances <;>
          simp [hz, accessedIn, hs, Nat.add_assoc]

/-- Claim C1: over any serialized sequence of accessor calls, a session id
has a bound entry iff some call addressed it; exactly one `WebCrawler()` is
constructed for it over the whole sequence; a `get_or_create_crawler` call
on a not-yet-accessed id constructs and binds a fresh engine (and a fresh
configuration) stamped with the call time; every call on an already-bound id
returns the stored engine, refreshes `last_accessed` to the call time and
constructs nothing; and the engine bound to the id never changes over any
continuation of the run. -/
theorem c1_single_engine_construction (ops : List AccessOp) (sid : String) :
    ((dictGet sid (runAccess ops).instances).isSome = accessedIn ops sid)
    ∧ (countFor (runAccess ops).constructions sid
        = if accessedIn ops sid then 1 else 0)
    ∧ (accessedIn ops sid = false → ∀ now : Nat,
        (get_or_create_crawler (runAccess ops) sid now).2
            = some (runAccess ops).nextId
        ∧ dictGet sid (get_or_create_crawler (runAccess ops) sid now).1.instances
            = some ⟨some (runAccess ops).nextId,
                some ((runAccess ops).nextId + 1), some now⟩
        ∧ (get_or_create_crawler (runAccess ops) sid now).1.constructions
            = (runAccess ops).constructions ++ [(sid, (runAccess ops).nextId)])
    ∧ (∀ e : PyEntry, dictGet sid (runAccess ops).instances = some e →
        ∀ now : Nat,
        (get_or_create_crawler (runAccess ops) sid now).2 = e.crawler
        ∧ dictGet sid (get_or_create_crawler (runAccess ops) sid now).1.instances
            = some { e with last_accessed := some now }
        ∧ (get_or_create_crawler (runAccess ops) sid now).1.constructions
            = (runAccess ops).constructions)
    ∧ (∀ (ops2 : List AccessOp) (e : PyEntry),
        dictGet sid (runAccess ops).instances = some e →
        ∃ e2, dictGet sid (runAccess (ops ++ ops2)).instances = some e2
          ∧ e2.crawler = e.crawler) := by
  refine ⟨?_, ?_, ?_, ?_, ?_⟩
  · exact runFrom_isSome ops initRegState sid rfl
  · have h := runFrom_count_absent ops initRegState sid rfl
    simpa [initRegState, countFor, runAccess] using h
  · intro hacc now
    have hnone : dictGet sid (runAccess ops).instances = none := by
      have h1 := runFrom_isSome ops initRegState sid rfl
      rw [hacc] at h1
      cases hcase : dictGet sid (runAccess ops).instances with
      | none => rfl
      | some e => rw [runAccess] at hcase; rw [hcase] at h1; simp at h1
    refine ⟨?_, ?_, ?_⟩
    · simp [get_or_create_crawler, hnone]
    · simp only [get_or_create_crawler, hnone]
      exact dictGet_dictSet_self _ _ _
    · simp [get_or_create_crawler, hnone]
  · intro e he now
    refine ⟨?_, ?_, ?_⟩
    · simp [get_or_create_crawler, he]
    · simp only [get_or_create_crawler, he]
      exact dictGet_dictSet_self _ _ _
    · simp [get_or_create_crawler, he]
  · intro ops2 e he
    rw [runAccess, runFrom_append]
    obtain ⟨e2, he2, hc, _⟩ := runFrom_present_stable ops2 (runAccess ops) sid e he
    exact ⟨e2, he2, hc⟩

/-- Concrete witness for c1_single_engine_construction: in the run
[settings "s1" at time 0, crawler "s1" at time 5], exactly one engine
(identity 0) is constructed, and a later get_or_create_crawler call at
time 9 returns that same engine while refreshing the timestamp. -/
theorem c1_single_engine_construction_witness :
    countFor (runAccess [AccessOp.settings "s1" 0,
        AccessOp.crawler "s1" 5]).constructions "s1" = 1
    ∧ (get_or_create_crawler (runAccess [AccessOp.settings "s1" 0,
        AccessOp.crawler "s1" 5]) "s1" 9).2 = some 0
    ∧ dictGet "s1" (get_or_create_crawler (runAccess [AccessOp.settings "s1" 0,
        AccessOp.crawler "s1" 5]) "s1" 9).1.instances
        = some ⟨some 0, some 1, some 9⟩ := by
  have h := c1_single_engine_construction
    [AccessOp.settings "s1" 0, AccessOp.crawler "s1" 5] "s1"
  have h4 := h.2.2.2.1 ⟨some 0, some 1, some 5⟩ (by decide) 9
  exact ⟨by rw [h.2.1]; decide, h4.1, h4.2.1⟩

/-- Claim C10: every entry reachable in the registry is fully initialized:
whichever accessor created it, it carries a crawler, a settings manager and
a last-accessed timestamp. -/
theorem c10_entries_fully_initialized (ops : List AccessOp) (sid : String)
    (e : PyEntry) (h : dictGet sid (runAccess ops).instances = some e) :
    e.crawler.isSome ∧ e.settings.isSome ∧ e.last_accessed.isSome := by
  have main : ∀ (l : List AccessOp) (s : RegState),
      (∀ sid2 e2, dictGet sid2 s.instances = some e2 →
        e2.crawler.isSome ∧ e2.settings.isSome ∧ e2.last_accessed.isSome) →
      ∀ sid2 e2, dictGet sid2 (runFrom s l).instances = some e2 →
        e2.crawler.isSome ∧ e2.settings.isSome ∧ e2.last_accessed.isSome := by
    intro l
    induction l with
    | nil => intro s hs sid2 e2 h2; exact hs sid2 e2 h2
    | cons op rest ih =>
        intro s hs sid2 e2 h2
        rw [runFrom] at h2
        refine ih _ ?_ sid2 e2 h2
        intro sid3 e3 h3
        cases hop : dictGet op.sid s.instances with
        | none =>
            rw [applyAccess_absent s op hop] at h3
            rcases dictGet_dictSet_cases h3 with ⟨_, rfl⟩ | ⟨_, h4⟩
            · exact ⟨rfl, rfl, rfl⟩
            · exact hs sid3 e3 h4
        | some w =>
            rw [applyAccess_present s op w hop] at h3
            rcases dictGet_dictSet_cases h3 with ⟨_, rfl⟩ | ⟨_, h4⟩
            · obtain ⟨hc, hst, _⟩ := hs op.sid w hop
              exact ⟨hc, hst, rfl⟩
            · exact hs sid3 e3 h4
  refine main ops initRegState ?_ sid e h
  intro sid2 e2 h2
  simp [initRegState, dictGet] at h2

/-- Concrete witness for c10_entries_fully_initialized: the entry created
by a settings-first access carries all three components. -/
theorem c10_entries_fully_initialized_witness :
    (PyEntry.crawler ⟨some 0, some 1, some 3⟩).isSome
    ∧ (PyEntry.settings ⟨some 0, some 1, some 3⟩).isSome
    ∧ (PyEntry.last_accessed ⟨some 0, some 1, some 3⟩).isSome :=
  c10_entries_fully_initialized [AccessOp.settings "s1" 3] "s1"
    ⟨some 0, some 1, some 3⟩ (by decide)

/-! ### Idle eviction (claim C2) -/

theorem dictGet_foldl_dictDel {β : Type} (L : List String) :
    ∀ (m : List (String × β)), nodupKeys m → ∀ sid : String,
    dictGet sid (L.foldl (fun acc k => dictDel k acc) m)
      = if sid ∈ L then none else dictGet sid m := by
  induction L with
  | nil => intro m _ sid; simp
  | cons k rest ih =>
      intro m hnd sid
      rw [List.foldl_cons, ih (dictDel k m) (nodupKeys_dictDel hnd) sid]
      by_cases hsk : sid = k
      · subst hsk
        by_cases hmem : sid ∈ rest <;>
          simp [hmem, dictGet_dictDel_self hnd]
      · rw [dictGet_dictDel_ne m hsk]
        simp [List.mem_cons, hsk]

theorem mem_sessions_to_remove {m : List (String × PyEntry)} {sid : String}
    {e : PyEntry} {now : Nat} (hnd : nodupKeys m) (h : dictGet sid m = some e) :
    sid ∈ (m.filter fun p => idleOver now p.2).map Prod.fst
      ↔ idleOver now e = true := by
  constructor
  · intro hmem
    obtain ⟨p, hp, hps⟩ := List.mem_map.mp hmem
    obtain ⟨p1, p2⟩ := p
    obtain ⟨hpm, hpi⟩ := List.mem_filter.mp hp
    cases hps
    have h2 := dictGet_of_mem hnd hpm
    rw [h] at h2
    cases h2
    exact hpi
  · intro hid
    exact List.mem_map.mpr
      ⟨(sid, e), List.mem_filter.mpr ⟨dictGet_mem h, hid⟩, rfl⟩

/-- Claim C2: after one cleanup sweep, a session is absent from the registry
iff its idle time (now minus last_accessed) strictly exceeds the one-hour
threshold.  The engine stop outcome is irrelevant: eviction happens even if
`stop_crawl` raises, and entries idle for less than the threshold survive
unchanged. -/
theorem c2_cleanup_evicts_iff (stopRaises : String → Bool) (now : Nat)
    (m : List (String × PyEntry)) (sid : String) (e : PyEntry) (t : Nat)
    (hnd : nodupKeys m) (h : dictGet sid m = some e)
    (ht : e.last_accessed = some t) :
    dictGet sid (cleanup_old_instances stopRaises now m).1
      = if 3600 < now - t then none else some e := by
  rw [cleanup_old_instances]
  rw [dictGet_foldl_dictDel _ m hnd sid]
  by_cases hidle : 3600 < now - t
  · have hmem : sid ∈ (m.filter fun p => idleOver now p.2).map Prod.fst :=
      (mem_sessions_to_remove hnd h).mpr (by simp [idleOver, ht, hidle])
    simp [hmem, hidle]
  · have hmem : sid ∉ (m.filter fun p => idleOver now p.2).map Prod.fst := by
      intro hc
      have h2 := (mem_sessions_to_remove hnd h).mp hc
      rw [idleOver, ht] at h2
      exact hidle (by simpa using h2)
    simp [hmem, hidle, h]

/-- Concrete witness for c2_cleanup_evicts_iff, realizing the spec scenario:
with the threshold at 3600 s, session "a" idle for 3660 s (61 minutes) is
evicted on the sweep even though its engine stop raises, while session "b"
idle for 3540 s (59 minutes) survives with its entry intact. -/
theorem c2_cleanup_evicts_iff_witness :
    dictGet "a" (cleanup_old_instances (fun _ => true) 3660
      [("a", ⟨some 0, some 1, some 0⟩), ("b", ⟨some 2, some 3, some 120⟩)]).1 = none
    ∧ dictGet "b" (cleanup_old_instances (fun _ => true) 3660
      [("a", ⟨some 0, some 1, some 0⟩), ("b", ⟨some 2, some 3, some 120⟩)]).1
        = some ⟨some 2, some 3, some 120⟩ := by
  constructor
  · rw [c2_cleanup_evicts_iff (fun _ => true) 3660
      [("a", ⟨some 0, some 1, some 0⟩), ("b", ⟨some 2, some 3, some 120⟩)]
      "a" ⟨some 0, some 1, some 0⟩ 0 (by decide) (by decide) rfl]
    decide
  · rw [c2_cleanup_evicts_iff (fun _ => true) 3660
      [("a", ⟨some 0, some 1, some 0⟩), ("b", ⟨some 2, some 3, some 120⟩)]
      "b" ⟨some 2, some 3, some 120⟩ 120 (by decide) (by decide) rfl]
    decide

/-! ### Persisted crawl jobs and boot-time crash recovery (claim C3) -/

/-- Status state machine of a persisted crawl job (spec section 4.3). -/
inductive CrawlStatus where
  | running
  | completed
  | failed
  | paused
  | archived
deriving DecidableEq, Repr

/-- Persisted metadata of one crawl job (the `crawls` row the endpoints in
src/main.py read: id, user_id, status, base_url, base_domain). -/
structure CrawlMeta where
  id : Nat
  user_id : Option Nat
  status : CrawlStatus
  base_url : String
  base_domain : String
deriving DecidableEq, Repr

/-- Status of the job with the given id in a persisted store (job ids are
unique in the database; the first match is the row). -/
def statusOf : List CrawlMeta → Nat → Option CrawlStatus
  | [], _ => none
  | j :: rest, i => if j.id = i then some j.status else statusOf rest i

/-- Modelled from the spec: `get_crashed_crawls` lives in src/crawl_db.py,
which is not among the given sources.  Spec section 4.3: crash detection is
"a pure scan ... over persisted job metadata" selecting "any persisted job
whose status is `running` when the process starts". -/
def get_crashed_crawls (jobs : List CrawlMeta) : List CrawlMeta :=
  jobs.filter fun j => j.status == CrawlStatus.running

/-- Modelled from the spec: `set_crawl_status` lives in src/crawl_db.py,
which is not among the given sources.  It is the Checkpoint Store operation
`set_status(id, status)` (spec section 6): rewrite the status of the job
with the given identifier. -/
def set_crawl_status (jobs : List CrawlMeta) (i : Nat) (st : CrawlStatus) :
    List CrawlMeta :=
  jobs.map fun j => if j.id = i then { j with status := st } else j

/-- src/main.py lines 1394-1411 (`recover_crashed_crawls`): fetch the jobs
persisted as `running`, then set each of their statuses to `failed`. -/
def recover_crashed_crawls (jobs : List CrawlMeta) : List CrawlMeta :=
  (get_crashed_crawls jobs).foldl
    (fun js c => set_crawl_status js c.id CrawlStatus.failed) jobs

theorem statusOf_set_crawl_status (jobs : List CrawlMeta) (c i : Nat)
    (st : CrawlStatus) :
    statusOf (set_crawl_status jobs c st) i
      = if i = c then (statusOf jobs i).map (fun _ => st)
        else statusOf jobs i := by
  induction jobs with
  | nil => simp [statusOf, set_crawl_status]
  | cons j rest ih =>
      by_cases hjc : j.id = c
      · by_cases hj : j.id = i
        · have hic : i = c := by rw [← hj, ← hjc]
          simp [statusOf, set_crawl_status, hjc, hj, hic]
        · have hic : ¬i = c := by
            intro hh
            exact hj (by rw [hjc, hh])
          simp only [set_crawl_status, List.map_cons, if_pos hjc] at *
          simp [statusOf, hj, hic, ih, set_crawl_status]
      · by_cases hj : j.id = i
        · have hic : ¬i = c := by
            intro hh
            exact hjc (by rw [hj, hh])
          simp [statusOf, set_crawl_status, hjc, hj, hic]
        · simp only [set_crawl_status, List.map_cons, if_neg hjc] at *
          simp [statusOf, hj, ih]

theorem statusOf_foldl_set_failed (L : List CrawlMeta) :
    ∀ (js : List CrawlMeta) (i : Nat),
    statusOf (L.foldl (fun a c => set_crawl_status a c.id CrawlStatus.failed) js) i
      = if i ∈ L.map CrawlMeta.id
        then (statusOf js i).map (fun _ => CrawlStatus.failed)
        else statusOf js i := by
  induction L with
  | nil => intro js i; simp
  | cons c rest ih =>
      intro js i
      rw [List.foldl_cons, ih, statusOf_set_crawl_status]
      by_cases hic : i = c.id
      · subst hic
        by_cases hmem : c.id ∈ rest.map CrawlMeta.id
        · simp [hmem]
          cases statusOf js c.id <;> rfl
        · simp [hmem]
      · by_cases hmem : i ∈ rest.map CrawlMeta.id <;>
          simp [hmem, hic]

theorem eq_of_mem_nodup_id {jobs : List CrawlMeta}
    (hnd : (jobs.map CrawlMeta.id).Nodup) {j j' : CrawlMeta}
    (hj : j ∈ jobs) (hj' : j' ∈ jobs) (hid : j.id = j'.id) : j = j' := by
  induction jobs with
  | nil => simp at hj
  | cons a rest ih =>
      rw [List.map_cons, List.nodup_cons] at hnd
      rcases List.mem_cons.mp hj with hj1 | hj1 <;>
        rcases List.mem_cons.mp hj' with hj2 | hj2
      · rw [hj1, hj2]
      · exfalso
        apply hnd.1
        have hm : j'.id ∈ rest.map CrawlMeta.id :=
          List.mem_map_of_mem CrawlMeta.id hj2
        rw [← hid, hj1] at hm
        exact hm
      · exfalso
        apply hnd.1
        have hm : j.id ∈ rest.map CrawlMeta.id :=
          List.mem_map_of_mem CrawlMeta.id hj1
        rw [hid, hj2] at hm
        exact hm
      · exact ih hnd.2 hj1 hj2

theorem statusOf_of_mem {jobs : List CrawlMeta}
    (hnd : (jobs.map CrawlMeta.id).Nodup) {j : CrawlMeta} (hj : j ∈ jobs) :
    statusOf jobs j.id = some j.status := by
  induction jobs with
  | nil => simp at hj
  | cons a rest ih =>
      rw [List.map_cons, List.nodup_cons] at hnd
      rcases List.mem_cons.mp hj with hj | hj
      · rw [hj, statusOf, if_pos rfl]
      · have ha : ¬a.id = j.id := by
          intro hh
          exact hnd.1 (hh ▸ List.mem_map_of_mem CrawlMeta.id hj)
        rw [statusOf, if_neg ha]
        exact ih hnd.2 hj

/-- Claim C3: the boot-time crash-recovery scan sets the status of every
persisted job that was stored as `running` to `failed` (and to nothing
else), and leaves jobs in any other persisted status unchanged. -/
theorem c3_crash_recovery_reclassifies (jobs : List CrawlMeta)
    (hnd : (jobs.map CrawlMeta.id).Nodup) (j : CrawlMeta) (hj : j ∈ jobs) :
    statusOf (recover_crashed_crawls jobs) j.id
      = some (if j.status = CrawlStatus.running then CrawlStatus.failed
              else j.status) := by
  rw [recover_crashed_crawls, statusOf_foldl_set_failed]
  by_cases hr : j.status = CrawlStatus.running
  · have hmem : j.id ∈ (get_crashed_crawls jobs).map CrawlMeta.id :=
      List.mem_map.mpr
        ⟨j, List.mem_filter.mpr ⟨hj, by simp [hr]⟩, rfl⟩
    rw [if_pos hmem, statusOf_of_mem hnd hj]
    simp [hr]
  · have hmem : j.id ∉ (get_crashed_crawls jobs).map CrawlMeta.id := by
      intro hc
      obtain ⟨j2, hj2, hid⟩ := List.mem_map.mp hc
      obtain ⟨hj2m, hst⟩ := List.mem_filter.mp hj2
      have heq : j2 = j := eq_of_mem_nodup_id hnd hj2m hj hid
      rw [heq] at hst
      simp only [beq_iff_eq] at hst
      exact hr hst
    rw [if_neg hmem, statusOf_of_mem hnd hj]
    simp [hr]

/-- Concrete witness for c3_crash_recovery_reclassifies: in a store holding
a running job 1 and a completed job 2, the boot scan fails job 1 and leaves
job 2 completed. -/
theorem c3_crash_recovery_reclassifies_witness :
    statusOf (recover_crashed_crawls
        [⟨1, some 5, CrawlStatus.running, "http://a.com", "a.com"⟩,
         ⟨2, none, CrawlStatus.completed, "http://b.com", "b.com"⟩]) 1
      = some CrawlStatus.failed
    ∧ statusOf (recover_crashed_crawls
        [⟨1, some 5, CrawlStatus.running, "http://a.com", "a.com"⟩,
         ⟨2, none, CrawlStatus.completed, "http://b.com", "b.com"⟩]) 2
      = some CrawlStatus.completed := by
  constructor
  · have h := c3_crash_recovery_reclassifies
      [⟨1, some 5, CrawlStatus.running, "http://a.com", "a.com"⟩,
       ⟨2, none, CrawlStatus.completed, "http://b.com", "b.com"⟩]
      (by decide)
      ⟨1, some 5, CrawlStatus.running, "http://a.com", "a.com"⟩
      (by simp)
    simpa using h
  · have h := c3_crash_recovery_reclassifies
      [⟨1, some 5, CrawlStatus.running, "http://a.com", "a.com"⟩,
       ⟨2, none, CrawlStatus.completed, "http://b.com", "b.com"⟩]
      (by decide)
      ⟨2, none, CrawlStatus.completed, "http://b.com", "b.com"⟩
      (by simp)
    simpa using h

/-! ### Graceful shutdown drain (claim C4) -/

/-- The engine state graceful_shutdown reads from one registry entry
(src/main.py line 1424): whether a crawl is running, the active crawl id,
whether database persistence is enabled — plus the opaque engine behaviour
of whether the forced batch flush will raise an exception. -/
structure ShEntry where
  is_running : Bool
  crawl_id : Option Nat
  db_save_enabled : Bool
  flushRaises : Bool
deriving DecidableEq, Repr

/-- A persisted job together with the checkpoint effects of the drain:
whether a forced batch flush reached the store and whether the resumption
cursor was written. -/
structure JobCk where
  id : Nat
  status : CrawlStatus
  flushed : Bool
  cursorSaved : Bool
deriving DecidableEq, Repr

/-- The persisted row for a job id (ids are unique in the database). -/
def ckFind : List JobCk → Nat → Option JobCk
  | [], _ => none
  | j :: rest, i => if j.id = i then some j else ckFind rest i

/-- Modelled from the spec: `_save_batch_to_db(force=True)` lives in
src/crawler.py, which is not among the given sources.  Spec section 4.4:
"force an immediate checkpoint flush (bypassing normal
batching/throttling)" for the given job. -/
def save_batch_to_db (js : List JobCk) (i : Nat) : List JobCk :=
  js.map fun j => if j.id = i then { j with flushed := true } else j

/-- Modelled from the spec: `_save_queue_checkpoint` lives in
src/crawler.py, which is not among the given sources.  Spec section 4.4:
"persist the resumption cursor" for the given job. -/
def save_queue_checkpoint (js : List JobCk) (i : Nat) : List JobCk :=
  js.map fun j => if j.id = i then { j with cursorSaved := true } else j

/-- Checkpoint-store status rewrite, as in set_crawl_status but on the
drain-side job records. -/
def set_status_ck (js : List JobCk) (i : Nat) (st : CrawlStatus) : List JobCk :=
  js.map fun j => if j.id = i then { j with status := st } else j

/-- src/main.py line 1424: `crawler.is_running and crawler.crawl_id and
crawler.db_save_enabled` (Python truthiness on the crawl id). -/
def drainTouches (e : ShEntry) : Bool :=
  e.is_running && pyTruthy e.crawl_id && e.db_save_enabled

/-- src/main.py lines 1422-1432, one iteration of the drain loop: for a
qualifying entry run `_save_batch_to_db(force=True)`,
`_save_queue_checkpoint()` and `set_crawl_status(crawl_id, 'paused')`
inside a per-entry try/except.  If the flush raises, the `except` at line
1431 swallows the error and the remaining two calls never run, leaving the
job untouched; the loop then continues with the next entry. -/
def drain_one (js : List JobCk) (e : ShEntry) : List JobCk :=
  if drainTouches e then
    match e.crawl_id with
    | some cid =>
        if e.flushRaises then js
        else set_status_ck (save_queue_checkpoint (save_batch_to_db js cid) cid)
               cid CrawlStatus.paused
    | none => js
  else js

/-- src/main.py lines 1413-1441 (`graceful_shutdown`): iterate the drain
over all registry entries (the whole loop runs under `instances_lock`). -/
def graceful_shutdown (entries : List (String × ShEntry)) (js : List JobCk) :
    List JobCk :=
  entries.foldl (fun a p => drain_one a p.2) js

theorem ckFind_mapUpdate (f : JobCk → JobCk) (hf : ∀ j, (f j).id = j.id)
    (js : List JobCk) (c i : Nat) :
    ckFind (js.map fun j => if j.id = c then f j else j) i
      = if i = c then (ckFind js i).map f else ckFind js i := by
  induction js with
  | nil => simp [ckFind]
  | cons j rest ih =>
      by_cases hjc : j.id = c
      · by_cases hji : j.id = i
        · have hic : i = c := by rw [← hji, hjc]
          simp [ckFind, hjc, hji, hic, hf, hf j ▸ hji]
        · have hic : ¬i = c := fun hh => hji (by rw [hjc, hh])
          have hfi : ¬(f j).id = i := by rw [hf]; exact hji
          simp only [List.map_cons, if_pos hjc, ckFind, hfi, if_neg hfi,
            if_neg hji, if_neg hic] at *
          simpa [hic] using ih
      · by_cases hji : j.id = i
        · have hic : ¬i = c := fun hh => hjc (by rw [hji, hh])
          simp [ckFind, hjc, hji, hic]
        · simp only [List.map_cons, if_neg hjc, ckFind, if_neg hji] at *
          exact ih

/-- Effect of a successful drain on a job record: checkpoint flushed,
cursor saved, status paused. -/
def pausedJob (j : JobCk) : JobCk :=
  { j with status := CrawlStatus.paused, flushed := true, cursorSaved := true }

theorem ckFind_drain_one (js : List JobCk) (e : ShEntry) (i : Nat) :
    ckFind (drain_one js e) i
      = if drainTouches e && (e.crawl_id == some i) && !e.flushRaises
        then (ckFind js i).map pausedJob
        else ckFind js i := by
  by_cases ht : drainTouches e
  · cases hc : e.crawl_id with
    | none =>
        rw [drainTouches, hc] at ht
        simp [pyTruthy] at ht
    | some c =>
        by_cases hr : e.flushRaises
        · simp [drain_one, ht, hc, hr]
        · have hstep : drain_one js e
              = set_status_ck (save_queue_checkpoint (save_batch_to_db js c) c)
                  c CrawlStatus.paused := by
            rw [drain_one, if_pos ht, hc]
            simp [hr]
          rw [hstep]
          rw [set_status_ck,
            ckFind_mapUpdate (fun j => { j with status := CrawlStatus.paused })
              (fun j => rfl),
            save_queue_checkpoint,
            ckFind_mapUpdate (fun j => { j with cursorSaved := true })
              (fun j => rfl),
            save_batch_to_db,
            ckFind_mapUpdate (fun j => { j with flushed := true })
              (fun j => rfl)]
          by_cases hci : i = c
          · subst hci
            simp only [ht, hr, hc, Bool.not_false, Bool.and_true, if_pos rfl,
              beq_iff_eq, Option.some.injEq]
            cases ckFind js i <;> simp [pausedJob]
          · have hne : ¬(e.crawl_id == some i) = true := by
              rw [hc]
              simp
              exact fun hh => hci hh.symm
            have hic : ¬c = i := fun hh => hci hh.symm
            simp [hci, hic, hne, ht]
  · simp [drain_one, ht]

theorem ckFind_graceful_shutdown (entries : List (String × ShEntry)) :
    ∀ (js : List JobCk) (i : Nat),
    ckFind (graceful_shutdown entries js) i
      = if entries.any
            (fun p => drainTouches p.2 && (p.2.crawl_id == some i) && !p.2.flushRaises)
        then (ckFind js i).map pausedJob
        else ckFind js i := by
  induction entries with
  | nil => intro js i; simp [graceful_shutdown]
  | cons p rest ih =>
      intro js i
      rw [graceful_shutdown, List.foldl_cons]
      have hfold : rest.foldl (fun a q => drain_one a q.2) (drain_one js p.2)
          = graceful_shutdown rest (drain_one js p.2) := rfl
      rw [hfold, ih (drain_one js p.2) i, ckFind_drain_one js p.2 i]
      by_cases hp : (drainTouches p.2 && (p.2.crawl_id == some i) && !p.2.flushRaises) = true
      · by_cases hrest : (rest.any
            (fun q => drainTouches q.2 && (q.2.crawl_id == some i) && !q.2.flushRaises)) = true
        · simp only [hp, hrest, if_pos, List.any_cons, Bool.true_or, if_true]
          cases ckFind js i <;> simp [pausedJob]
        · simp [hp, hrest]
      · by_cases hrest : (rest.any
            (fun q => drainTouches q.2 && (q.2.crawl_id == some i) && !q.2.flushRaises)) = true
        · simp [hp, hrest]
        · simp [hp, hrest]

/-- Claim C4 counterexample: three sessions are running jobs 1, 2, 3 with
persistence enabled and the second session's forced flush raises.  After
the drain, jobs 1 and 3 are paused with checkpoints, but job 2 — whose
entry qualifies (running, persistence enabled) — is still `running` with
nothing flushed: the claim's "a forced checkpoint flush is performed, the
resumption cursor is persisted, and the job's status is set to `paused`"
is false for the failing entry (the spec scenario expects all N sessions
paused even when the flush of one raises). -/
theorem c4_drain_counterexample :
    (let js2 := graceful_shutdown
        [("s1", ⟨true, some 1, true, false⟩),
         ("s2", ⟨true, some 2, true, true⟩),
         ("s3", ⟨true, some 3, true, false⟩)]
        [⟨1, CrawlStatus.running, false, false⟩,
         ⟨2, CrawlStatus.running, false, false⟩,
         ⟨3, CrawlStatus.running, false, false⟩]
     drainTouches ⟨true, some 2, true, true⟩ = true
     ∧ ckFind js2 2 = some ⟨2, CrawlStatus.running, false, false⟩
     ∧ ¬ ckFind js2 2 = some (pausedJob ⟨2, CrawlStatus.running, false, false⟩)
     ∧ ckFind js2 1 = some ⟨1, CrawlStatus.paused, true, true⟩
     ∧ ckFind js2 3 = some ⟨3, CrawlStatus.paused, true, true⟩) := by
  decide

/-- Claim C4 (amended): during graceful shutdown, a job is flushed,
cursor-persisted and set to `paused` iff some registry entry is running it
with persistence enabled and that entry's forced flush does not raise; a
job touched only by entries whose flush raises is left completely
unchanged (the error is caught inside the per-entry try), and one entry's
failure never prevents the remaining entries from being processed: the
outcome for each job depends only on the entries driving that job. -/
theorem c4_graceful_drain_processes_entries (entries : List (String × ShEntry))
    (js : List JobCk) (i : Nat) :
    ckFind (graceful_shutdown entries js) i
      = if entries.any
            (fun p => drainTouches p.2 && (p.2.crawl_id == some i) && !p.2.flushRaises)
        then (ckFind js i).map pausedJob
        else ckFind js i :=
  ckFind_graceful_shutdown entries js i

/-! ### Loading a persisted crawl into a session (claims C5, C6, C9) -/

/-- A persisted URL record (payload fields beyond the URL are opaque). -/
structure UrlRec where
  url : String
deriving DecidableEq, Repr

/-- A persisted link record: the two fields src/main.py reads when
rebuilding the dedup index (line 1067). -/
structure LinkRec where
  source_url : String
  target_url : String
deriving DecidableEq, Repr

/-- A persisted issue record; `url` is the field the exclusion filter
reads, the rest of the payload is opaque. -/
structure IssueRec where
  url : String
  issue : String
deriving DecidableEq, Repr

/-- The link-manager state src/main.py manipulates (lines 1062-1068):
`all_links` and the dedup set `links_set` of `"source|target"` keys. -/
structure LinkManager where
  all_links : List LinkRec
  links_set : Finset String
deriving DecidableEq

/-- The issue-detector state src/main.py manipulates (lines 1071-1072). -/
structure IssueDetector where
  detected_issues : List IssueRec
deriving DecidableEq

/-- The engine state read and written by the injection code of
src/main.py (lines 1044-1072); the engine is otherwise opaque.
`link_manager` / `issue_detector` are optional because the code guards on
their truthiness (`if crawler.link_manager:`). -/
structure WebCrawler where
  is_running : Bool
  crawl_results : List UrlRec
  statsCrawled : Nat
  statsDiscovered : Nat
  base_url : String
  base_domain : String
  link_manager : Option LinkManager
  issue_detector : Option IssueDetector
deriving DecidableEq

/-- Engine control surface `stop_crawl()` (spec section 6): request the
in-progress crawl to halt.  Engine internals are out of scope. -/
def stop_crawl (c : WebCrawler) : WebCrawler := { c with is_running := false }

/-- src/main.py line 1067: the dedup key `f"{source_url}|{target_url}"`. -/
def link_key (l : LinkRec) : String := l.source_url ++ "|" ++ l.target_url

/-- src/main.py lines 1065-1068: `links_set.clear()` followed by adding the
key of every loaded link. -/
def rebuild_links_set (links : List LinkRec) : Finset String :=
  links.foldl (fun s l => insert (link_key l) s) ∅

/-- Modelled from the spec: `get_crawl_by_id` lives in src/crawl_db.py,
which is not among the given sources; it is the Checkpoint Store read
`read_job(id)` (spec section 6). -/
def get_crawl_by_id : List CrawlMeta → Nat → Option CrawlMeta
  | [], _ => none
  | j :: rest, i => if j.id = i then some j else get_crawl_by_id rest i

/-- Result of a load-crawl request as seen by the caller. -/
inductive LoadOutcome where
  | notFound
  | unauthorized
  | ok (urls_count links_count issues_count : Nat)
deriving DecidableEq, Repr

/-- src/main.py lines 1024-1089 (`load_crawl_into_session`): look the job
up (404 `Crawl not found` when absent); reject 403 `Unauthorized` when
`user_id and crawl.get('user_id') != user_id` (Python truthiness on the
requesting owner); stop a running crawl; read the persisted url/link/issue
records (the Checkpoint Store reads `load_crawled_urls`,
`load_crawl_links`, `load_crawl_issues` of src/crawl_db.py, not among the
given sources, are modelled from the spec as the records persisted for the
job, supplied here as functions of the crawl id); inject them into the
engine with counts set to the number of loaded URL records; rebuild the
link dedup set; set the session flag `force_full_refresh`.  The job store
is threaded through unchanged because the endpoint performs no store
write. -/
def load_crawl_into_session (store : List CrawlMeta)
    (urlsOf : Nat → List UrlRec) (linksOf : Nat → List LinkRec)
    (issuesOf : Nat → List IssueRec) (crawl_id : Nat) (user_id : Option Nat)
    (c : WebCrawler) (flag : Bool) :
    List CrawlMeta × WebCrawler × Bool × LoadOutcome :=
  match get_crawl_by_id store crawl_id with
  | none => (store, c, flag, LoadOutcome.notFound)
  | some crawl =>
      if pyTruthy user_id && !(crawl.user_id == user_id) then
        (store, c, flag, LoadOutcome.unauthorized)
      else
        let c1 := if c.is_running then stop_crawl c else c
        let urls := urlsOf crawl_id
        let links := linksOf crawl_id
        let issues := issuesOf crawl_id
        let c2 := { c1 with
          crawl_results := urls,
          statsCrawled := urls.length,
          statsDiscovered := urls.length,
          base_url := crawl.base_url,
          base_domain := crawl.base_domain }
        let c3 := match c2.link_manager with
          | some _ =>
              { c2 with link_manager := some ⟨links, rebuild_links_set links⟩ }
          | none => c2
        let c4 := match c3.issue_detector with
          | some _ => { c3 with issue_detector := some ⟨issues⟩ }
          | none => c3
        (store, c4, true,
         LoadOutcome.ok urls.length links.length issues.length)

/-- Claim C5 counterexample: job 1 is owned by user 5 and the request comes
from a guest session (requesting owner None).  The claim requires the load
to fail Unauthorized — the requesting owner does not match the non-null job
owner — but the guard `if user_id and crawl.get('user_id') != user_id`
(src/main.py line 1038) is skipped entirely for a falsy requester, and the
load succeeds. -/
theorem c5_owner_guard_counterexample :
    (load_crawl_into_session
        [⟨1, some 5, CrawlStatus.completed, "http://a.com", "a.com"⟩]
        (fun _ => []) (fun _ => []) (fun _ => []) 1 none
        ⟨false, [], 0, 0, "", "", some ⟨[], ∅⟩, some ⟨[]⟩⟩ false).2.2.2
      = LoadOutcome.ok 0 0 0
    ∧ ¬ (load_crawl_into_session
        [⟨1, some 5, CrawlStatus.completed, "http://a.com", "a.com"⟩]
        (fun _ => []) (fun _ => []) (fun _ => []) 1 none
        ⟨false, [], 0, 0, "", "", some ⟨[], ∅⟩, some ⟨[]⟩⟩ false).2.2.2
      = LoadOutcome.unauthorized := by
  decide

/-- Claim C5 (amended): a load-crawl request fails NotFound iff no job has
the requested id; otherwise it fails Unauthorized iff the requesting owner
is truthy (non-null and non-zero) and differs from the job's stored owner
(a guest requester is never rejected, and a truthy requester is rejected
even when the job's stored owner is null); in exactly the remaining cases
the job is loaded into the session.  In the failure cases nothing is
loaded: store, engine and session flag are untouched. -/
theorem c5_load_guard (store : List CrawlMeta) (urlsOf : Nat → List UrlRec)
    (linksOf : Nat → List LinkRec) (issuesOf : Nat → List IssueRec)
    (crawl_id : Nat) (user_id : Option Nat) (c : WebCrawler) (flag : Bool) :
    (get_crawl_by_id store crawl_id = none →
      load_crawl_into_session store urlsOf linksOf issuesOf crawl_id user_id c flag
        = (store, c, flag, LoadOutcome.notFound))
    ∧ (∀ crawl, get_crawl_by_id store crawl_id = some crawl →
        (pyTruthy user_id && !(crawl.user_id == user_id)) = true →
        load_crawl_into_session store urlsOf linksOf issuesOf crawl_id user_id c flag
          = (store, c, flag, LoadOutcome.unauthorized))
    ∧ (∀ crawl, get_crawl_by_id store crawl_id = some crawl →
        (pyTruthy user_id && !(crawl.user_id == user_id)) = false →
        ∃ c2, load_crawl_into_session store urlsOf linksOf issuesOf crawl_id user_id c flag
          = (store, c2, true,
             LoadOutcome.ok (urlsOf crawl_id).length (linksOf crawl_id).length
               (issuesOf crawl_id).length)) := by
  refine ⟨?_, ?_, ?_⟩
  · intro h
    simp [load_crawl_into_session, h]
  · intro crawl hj hg
    simp [load_crawl_into_session, hj, hg]
  · intro crawl hj hg
    rw [load_crawl_into_session]
    rw [hj]
    simp only [hg, Bool.false_eq_true, if_false]
    exact ⟨_, rfl⟩

/-- Concrete witness for c5_load_guard: user 6 may not load user 5's job
(Unauthorized), while user 5 loads it successfully. -/
theorem c5_load_guard_witness :
    load_crawl_into_session
        [⟨1, some 5, CrawlStatus.completed, "http://a.com", "a.com"⟩]
        (fun _ => []) (fun _ => []) (fun _ => []) 1 (some 6)
        ⟨false, [], 0, 0, "", "", some ⟨[], ∅⟩, some ⟨[]⟩⟩ false
      = ([⟨1, some 5, CrawlStatus.completed, "http://a.com", "a.com"⟩],
         ⟨false, [], 0, 0, "", "", some ⟨[], ∅⟩, some ⟨[]⟩⟩, false,
         LoadOutcome.unauthorized)
    ∧ ∃ c2, load_crawl_into_session
        [⟨1, some 5, CrawlStatus.completed, "http://a.com", "a.com"⟩]
        (fun _ => []) (fun _ => []) (fun _ => []) 1 (some 5)
        ⟨false, [], 0, 0, "", "", some ⟨[], ∅⟩, some ⟨[]⟩⟩ false
      = ([⟨1, some 5, CrawlStatus.completed, "http://a.com", "a.com"⟩],
         c2, true, LoadOutcome.ok 0 0 0) := by
  constructor
  · exact (c5_load_guard
      [⟨1, some 5, CrawlStatus.completed, "http://a.com", "a.com"⟩]
      (fun _ => []) (fun _ => []) (fun _ => []) 1 (some 6)
      ⟨false, [], 0, 0, "", "", some ⟨[], ∅⟩, some ⟨[]⟩⟩ false).2.1
      ⟨1, some 5, CrawlStatus.completed, "http://a.com", "a.com"⟩ rfl (by decide)
  · exact (c5_load_guard
      [⟨1, some 5, CrawlStatus.completed, "http://a.com", "a.com"⟩]
      (fun _ => []) (fun _ => []) (fun _ => []) 1 (some 5)
      ⟨false, [], 0, 0, "", "", some ⟨[], ∅⟩, some ⟨[]⟩⟩ false).2.2
      ⟨1, some 5, CrawlStatus.completed, "http://a.com", "a.com"⟩ rfl (by decide)

theorem foldl_insert_link_key (links : List LinkRec) :
    ∀ s : Finset String,
    links.foldl (fun s l => insert (link_key l) s) s
      = s ∪ (links.map link_key).toFinset := by
  induction links with
  | nil => intro s; simp
  | cons l rest ih =>
      intro s
      rw [List.foldl_cons, ih]
      simp [Finset.insert_union, Finset.union_insert]

theorem rebuild_links_set_eq (links : List LinkRec) :
    rebuild_links_set links = (links.map link_key).toFinset := by
  rw [rebuild_links_set, foldl_insert_link_key]
  simp

/-- The (source, target) pair of a link record. -/
def link_pair (l : LinkRec) : String × String := (l.source_url, l.target_url)

theorem card_links_set_of_key_inj (links : List LinkRec)
    (hinj : ∀ l1 ∈ links, ∀ l2 ∈ links, link_key l1 = link_key l2 → l1 = l2) :
    ((links.map link_key).toFinset).card
      = ((links.map link_pair).toFinset).card := by
  have hmap : links.map link_key
      = (links.map link_pair).map (fun p => p.1 ++ "|" ++ p.2) := by
    rw [List.map_map]
    rfl
  rw [hmap]
  have himg : (List.map (fun p : String × String => p.1 ++ "|" ++ p.2)
      (links.map link_pair)).toFinset
      = ((links.map link_pair).toFinset).image
          (fun p : String × String => p.1 ++ "|" ++ p.2) := by
    ext x
    simp
  rw [himg]
  apply Finset.card_image_of_injOn
  intro p hp q hq hpq
  simp only [Finset.mem_coe, List.mem_toFinset, List.mem_map] at hp hq
  obtain ⟨l1, hl1, rfl⟩ := hp
  obtain ⟨l2, hl2, rfl⟩ := hq
  have : l1 = l2 := hinj l1 hl1 l2 hl2 hpq
  rw [this]

/-- Claim C6 counterexample: load two distinct link records
("a|b" → "c") and ("a" → "b|c") — two distinct (source_url, target_url)
pairs.  The rebuilt dedup index is keyed by the string
f"{source_url}|{target_url}", and both records produce the key "a|b|c", so
the index ends up with one entry instead of one per unique pair. -/
theorem c6_dedup_key_counterexample :
    (let r := load_crawl_into_session
        [⟨1, none, CrawlStatus.completed, "http://a.com", "a.com"⟩]
        (fun _ => []) (fun _ => [⟨"a|b", "c"⟩, ⟨"a", "b|c"⟩]) (fun _ => [])
        1 none ⟨false, [], 0, 0, "", "", some ⟨[], ∅⟩, some ⟨[]⟩⟩ false
     (r.2.1.link_manager = some ⟨[⟨"a|b", "c"⟩, ⟨"a", "b|c"⟩], {"a|b|c"}⟩)
     ∧ (([⟨"a|b", "c"⟩, ⟨"a", "b|c"⟩] : List LinkRec).map link_pair).toFinset.card = 2
     ∧ ¬ ((match r.2.1.link_manager with
           | some lm => lm.links_set.card
           | none => 0)
          = (([⟨"a|b", "c"⟩, ⟨"a", "b|c"⟩] : List LinkRec).map link_pair).toFinset.card)) := by
  decide

/-- Claim C6 (amended): after loading a persisted crawl, the engine's
crawled and discovered counts both equal exactly the number of loaded URL
records, the loaded URL, link and issue collections are exactly the
persisted ones, and the link-dedup index is rebuilt from the loaded links
as the set of key strings source_url ++ "|" ++ target_url — exactly one
entry per distinct key; whenever that key is injective on the loaded links
(in particular when no URL contains the "|" separator) this is exactly one
entry per unique (source_url, target_url) pair. -/
theorem c6_load_exact_counts_and_dedup (store : List CrawlMeta)
    (urlsOf : Nat → List UrlRec) (linksOf : Nat → List LinkRec)
    (issuesOf : Nat → List IssueRec) (crawl_id : Nat) (user_id : Option Nat)
    (c : WebCrawler) (flag : Bool) (crawl : CrawlMeta)
    (lm : LinkManager) (idet : IssueDetector)
    (hj : get_crawl_by_id store crawl_id = some crawl)
    (hg : (pyTruthy user_id && !(crawl.user_id == user_id)) = false)
    (hlm : c.link_manager = some lm) (hdet : c.issue_detector = some idet) :
    (let c2 := (load_crawl_into_session store urlsOf linksOf issuesOf
        crawl_id user_id c flag).2.1
     c2.crawl_results = urlsOf crawl_id
     ∧ c2.statsCrawled = (urlsOf crawl_id).length
     ∧ c2.statsDiscovered = (urlsOf crawl_id).length
     ∧ c2.link_manager
         = some ⟨linksOf crawl_id, ((linksOf crawl_id).map link_key).toFinset⟩
     ∧ c2.issue_detector = some ⟨issuesOf crawl_id⟩
     ∧ ((∀ l1 ∈ linksOf crawl_id, ∀ l2 ∈ linksOf crawl_id,
           link_key l1 = link_key l2 → l1 = l2) →
         (match c2.link_manager with
          | some lm2 => lm2.links_set.card
          | none => 0)
           = ((linksOf crawl_id).map link_pair).toFinset.card)) := by
  rw [load_crawl_into_session, hj]
  simp only [hg, Bool.false_eq_true, if_false]
  by_cases hrun : c.is_running = true
  all_goals
    simp only [hrun, if_true, if_false, Bool.false_eq_true, stop_crawl,
      hlm, hdet, rebuild_links_set_eq]
  all_goals
    refine ⟨?_, ?_, ?_, ?_, ?_, ?_⟩ <;>
      first
        | rfl
        | trivial
        | (intro hinj
           exact card_links_set_of_key_inj (linksOf crawl_id) hinj)

/-- Concrete witness for c6_load_exact_counts_and_dedup: loading one URL,
two separator-free links and one issue yields counts 1, the exact
collections, and a two-entry dedup index —  one per unique pair. -/
theorem c6_load_exact_counts_and_dedup_witness :
    (let c2 := (load_crawl_into_session
        [⟨1, none, CrawlStatus.completed, "http://a.com", "a.com"⟩]
        (fun _ => [⟨"http://a.com"⟩])
        (fun _ => [⟨"a", "b"⟩, ⟨"a", "c"⟩])
        (fun _ => [⟨"http://a.com", "missing title"⟩])
        1 none ⟨false, [], 0, 0, "", "", some ⟨[], ∅⟩, some ⟨[]⟩⟩ false).2.1
     c2.statsCrawled = 1
     ∧ c2.crawl_results = [⟨"http://a.com"⟩]
     ∧ (match c2.link_manager with
        | some lm2 => lm2.links_set.card
        | none => 0) = 2) := by
  have h := c6_load_exact_counts_and_dedup
      [⟨1, none, CrawlStatus.completed, "http://a.com", "a.com"⟩]
      (fun _ => [⟨"http://a.com"⟩])
      (fun _ => [⟨"a", "b"⟩, ⟨"a", "c"⟩])
      (fun _ => [⟨"http://a.com", "missing title"⟩])
      1 none ⟨false, [], 0, 0, "", "", some ⟨[], ∅⟩, some ⟨[]⟩⟩ false
      ⟨1, none, CrawlStatus.completed, "http://a.com", "a.com"⟩
      ⟨[], ∅⟩ ⟨[]⟩ rfl (by decide) rfl rfl
  refine ⟨h.2.1, h.1, ?_⟩
  rw [h.2.2.2.2.2 (by decide)]
  decide

/-- Claim C9: load_crawl_into_session performs no write to the persisted
job store — the store after the call is exactly the store before, so every
job's stored status is unchanged (in particular no transition to `running`
happens on a read-only load). -/
theorem c9_load_preserves_persisted_status (store : List CrawlMeta)
    (urlsOf : Nat → List UrlRec) (linksOf : Nat → List LinkRec)
    (issuesOf : Nat → List IssueRec) (crawl_id : Nat) (user_id : Option Nat)
    (c : WebCrawler) (flag : Bool) :
    (load_crawl_into_session store urlsOf linksOf issuesOf crawl_id user_id
        c flag).1 = store
    ∧ ∀ i : Nat,
        statusOf (load_crawl_into_session store urlsOf linksOf issuesOf
          crawl_id user_id c flag).1 i = statusOf store i := by
  have hstore : (load_crawl_into_session store urlsOf linksOf issuesOf
      crawl_id user_id c flag).1 = store := by
    rw [load_crawl_into_session]
    cases hj : get_crawl_by_id store crawl_id with
    | none => rfl
    | some crawl =>
        by_cases hg : (pyTruthy user_id && !(crawl.user_id == user_id)) = true
        · simp [hg]
        · simp [hg]
  exact ⟨hstore, fun i => by rw [hstore]⟩

/-! ### Registry lock discipline (claim C7) -/

/-- Events of one registry-core operation at the granularity the
lock-discipline claim speaks about: acquiring/releasing `instances_lock`,
touching the `crawler_instances` map, calling into an engine instance
(`stop_crawl`, `_save_batch_to_db`, `_save_queue_checkpoint`), and blocking
persistence I/O (`set_crawl_status`). -/
inductive LockEv where
  | acq
  | rel
  | mapOp
  | engineCall
  | persistCall
deriving DecidableEq, Repr

/-- Event trace of get_or_create_crawler / get_session_settings
(src/main.py 158-171, 183-196): acquire, membership test, insert or
update, read of the returned component, release — map operations only. -/
def goc_trace : List LockEv :=
  [LockEv.acq, LockEv.mapOp, LockEv.mapOp, LockEv.mapOp, LockEv.rel]

/-- Event trace of cleanup_old_instances (src/main.py 203-216): the whole
body, including every `crawler.stop_crawl()` engine call and the `del`,
runs inside `with instances_lock`. -/
def cleanup_trace (expired : List String) : List LockEv :=
  [LockEv.acq, LockEv.mapOp]
  ++ (expired.foldr (fun _ acc => LockEv.engineCall :: LockEv.mapOp :: acc) [])
  ++ [LockEv.rel]

/-- Event trace of graceful_shutdown (src/main.py 1421-1432): the whole
drain loop runs inside `with instances_lock`; each active entry gets two
engine calls (forced flush, cursor write) and one blocking persistence
write (set_crawl_status). -/
def shutdown_trace (active : Nat) : List LockEv :=
  [LockEv.acq, LockEv.mapOp]
  ++ (List.replicate active
        [LockEv.engineCall, LockEv.engineCall, LockEv.persistCall]).flatten
  ++ [LockEv.rel]

/-- Whether a trace performs an engine call or blocking persistence I/O
while the registry lock is held (lock depth counted from the second
argument). -/
def blockingUnderLock : List LockEv → Nat → Bool
  | [], _ => false
  | LockEv.acq :: t, d => blockingUnderLock t (d + 1)
  | LockEv.rel :: t, d => blockingUnderLock t (d - 1)
  | LockEv.mapOp :: t, d => blockingUnderLock t d
  | LockEv.engineCall :: t, d => decide (0 < d) || blockingUnderLock t d
  | LockEv.persistCall :: t, d => decide (0 < d) || blockingUnderLock t d

/-- Claim C7 counterexample: a cleanup sweep with one expired session stops
that session's engine while `instances_lock` is held (the stop is inside
the `with instances_lock:` block, src/main.py 203-216), and a graceful
shutdown with one active entry flushes and writes persistence under the
same lock (src/main.py 1421-1432) — the registry's exclusive section IS
held across engine calls and blocking persistence I/O. -/
theorem c7_lock_counterexample :
    blockingUnderLock (cleanup_trace ["s1"]) 0 = true
    ∧ blockingUnderLock (shutdown_trace 1) 0 = true := by
  decide

/-- Claim C7 (amended): the registry accessors hold the lock only for map
operations — their critical sections contain no engine call and no
persistence I/O — but cleanup_old_instances holds the lock across the
engine stop of every expired session, and graceful_shutdown holds it
across the checkpoint flush, cursor write and status write of every
active entry. -/
theorem c7_lock_discipline :
    (blockingUnderLock goc_trace 0 = false)
    ∧ (∀ expired : List String, expired ≠ [] →
        blockingUnderLock (cleanup_trace expired) 0 = true)
    ∧ (∀ active : Nat, 0 < active →
        blockingUnderLock (shutdown_trace active) 0 = true) := by
  refine ⟨by decide, ?_, ?_⟩
  · intro expired h
    cases expired with
    | nil => exact absurd rfl h
    | cons x xs => simp [cleanup_trace, blockingUnderLock]
  · intro active h
    cases active with
    | zero => omega
    | succ n =>
        simp [shutdown_trace, blockingUnderLock, List.replicate]

/-- Concrete witness for c7_lock_discipline: one expired session and two
active entries. -/
theorem c7_lock_discipline_witness :
    blockingUnderLock goc_trace 0 = false
    ∧ blockingUnderLock (cleanup_trace ["s2"]) 0 = true
    ∧ blockingUnderLock (shutdown_trace 2) 0 = true :=
  ⟨c7_lock_discipline.1,
   c7_lock_discipline.2.1 ["s2"] (by decide),
   c7_lock_discipline.2.2 2 (by decide)⟩

/-! ### Status polling with incremental cursors (claim C8) -/

/-- Membership of a character in an fnmatch character-class body, with
`a-z` ranges (Python translates `[seq]` into a regex class). -/
def classMem (c : Char) : List Char → Bool
  | lo :: '-' :: hi :: rest =>
      (decide (lo ≤ c) && decide (c ≤ hi)) || classMem c rest
  | x :: rest => decide (x = c) || classMem c rest
  | [] => false

/-- Split a character-class body at its closing `]`; none when the class
is unterminated. -/
def findRBrack : List Char → Option (List Char × List Char)
  | [] => none
  | c :: rest =>
      if c = ']' then some ([], rest)
      else
        match findRBrack rest with
        | some (b, r) => some (c :: b, r)
        | none => none

theorem findRBrack_rest_lt :
    ∀ (l : List Char) (b r : List Char), findRBrack l = some (b, r) →
      r.length < l.length := by
  intro l
  induction l with
  | nil => intro b r h; simp [findRBrack] at h
  | cons c rest ih =>
      intro b r h
      rw [findRBrack] at h
      by_cases hc : c = ']'
      · rw [if_pos hc] at h
        cases h
        simp
      · rw [if_neg hc] at h
        cases hfr : findRBrack rest with
        | none =>
            rw [hfr] at h
            exact Option.noConfusion h
        | some p =>
            obtain ⟨b2, r2⟩ := p
            rw [hfr] at h
            have hlen := ih b2 r2 hfr
            cases h
            simp only [List.length_cons]
            omega

/-- Whether an fnmatch class (the characters after `[`) starts with the
negation marker `!`. -/
def classNeg : List Char → Bool
  | c :: _ => decide (c = '!')
  | [] => false

/-- Drop the leading negation marker of an fnmatch class, if present. -/
def stripNeg : List Char → List Char
  | [] => []
  | c :: t => if c = '!' then t else c :: t

/-- Parse an fnmatch character class after the optional negation marker:
a `]` in first position is a literal member; the class ends at the next
`]`; none when unterminated. -/
def parseClassBody : List Char → Option (List Char × List Char)
  | [] => none
  | c :: t2 =>
      if c = ']' then
        match findRBrack t2 with
        | some (b, r) => some (']' :: b, r)
        | none => none
      else findRBrack (c :: t2)

/-- Parse an fnmatch character class from the characters after `[`:
returns (class body, rest of the pattern after the closing `]`). -/
def parseClass (ps : List Char) : Option (List Char × List Char) :=
  parseClassBody (stripNeg ps)

theorem stripNeg_length_le (ps : List Char) :
    (stripNeg ps).length ≤ ps.length := by
  cases ps with
  | nil => exact Nat.le_refl _
  | cons c t =>
      rw [stripNeg]
      by_cases hc : c = '!'
      · rw [if_pos hc]
        simp
      · rw [if_neg hc]

theorem parseClassBody_rest_lt (l : List Char) (b r : List Char)
    (h : parseClassBody l = some (b, r)) : r.length < l.length := by
  cases l with
  | nil => exact Option.noConfusion h
  | cons c t2 =>
      rw [parseClassBody] at h
      by_cases hc : c = ']'
      · rw [if_pos hc] at h
        cases hfr : findRBrack t2 with
        | none =>
            rw [hfr] at h
            exact Option.noConfusion h
        | some p =>
            obtain ⟨b2, r2⟩ := p
            rw [hfr] at h
            have hlt := findRBrack_rest_lt t2 b2 r2 hfr
            cases h
            simp only [List.length_cons]
            omega
      · rw [if_neg hc] at h
        exact findRBrack_rest_lt (c :: t2) b r h

theorem parseClass_rest_lt (ps : List Char) (b r : List Char)
    (h : parseClass ps = some (b, r)) : r.length < ps.length := by
  have h1 := parseClassBody_rest_lt (stripNeg ps) b r h
  have h2 := stripNeg_length_le ps
  omega

/-- Python `fnmatch.fnmatch(name, pattern)` on POSIX (no case folding),
modelled from the standard library that src/main.py imports: glob match of
the whole name with `*` (any sequence), `?` (any character) and `[...]`
character classes (`[!...]` negated, a `]` directly after `[` or `[!` is a
literal member, ranges `a-z` allowed, an unterminated `[` is a literal). -/
def globMatch : List Char → List Char → Bool
  | [], [] => true
  | [], _ :: _ => false
  | '*' :: ps, [] => globMatch ps []
  | '*' :: ps, c :: s2 => globMatch ps (c :: s2) || globMatch ('*' :: ps) s2
  | '?' :: ps, _ :: s => globMatch ps s
  | '[' :: ps, c :: s =>
      match hp : parseClass ps with
      | some (b, r) => (classNeg ps != classMem c b) && globMatch r s
      | none => decide ('[' = c) && globMatch ps s
  | p :: ps, c :: s => decide (p = c) && globMatch ps s
  | _ :: _, [] => false
termination_by ps s => ps.length + s.length
decreasing_by
  all_goals simp_wf
  all_goals try omega
  all_goals
    have := parseClass_rest_lt ps _ _ hp
    omega

/-- Python `fnmatch.fnmatch(path, pattern)`. -/
def fnmatch (name pattern : String) : Bool :=
  globMatch pattern.toList name.toList

/-- Python whitespace test used by `str.strip()` (ASCII range). -/
def isPySpace (c : Char) : Bool :=
  decide (c = ' ') || decide (c = '\t') || decide (c = '\n')
    || decide (c = '\r') || decide (c = '\x0b') || decide (c = '\x0c')

/-- Python `str.strip()`: drop leading and trailing whitespace. -/
def pyStrip (s : String) : String :=
  String.mk (((s.toList.dropWhile isPySpace).reverse.dropWhile isPySpace).reverse)

/-- Whether the first list is a leading segment of the second
(Python `str.startswith`). -/
def listStartsWith : List Char → List Char → Bool
  | [], _ => true
  | _ :: _, [] => false
  | p :: ps, c :: cs => decide (p = c) && listStartsWith ps cs

/-- Python `s.startswith(p)`. -/
def pyStartsWith (s p : String) : Bool :=
  listStartsWith p.toList s.toList

/-- Python `'*' in s` for a single character. -/
def pyContainsChar (s : String) (c : Char) : Bool :=
  s.toList.any fun x => decide (x = c)

/-- Python `s.rstrip('*')`. -/
def rstripStar (s : String) : String :=
  String.mk ((s.toList.reverse.dropWhile fun c => decide (c = '*')).reverse)

/-- Python `text.split('\n')`: split at every newline, keeping empties. -/
def splitLines : List Char → List (List Char)
  | [] => [[]]
  | c :: rest =>
      if c = '\n' then [] :: splitLines rest
      else
        match splitLines rest with
        | [] => [[c]]
        | l :: ls => (c :: l) :: ls

/-- The substring after the first "://", if any. -/
def afterSchemeSep : List Char → Option (List Char)
  | [] => none
  | ':' :: '/' :: '/' :: rest => some rest
  | _ :: rest => afterSchemeSep rest

/-- Modelled from the Python standard library (imported by src/main.py at
line 343): `urlparse(url).path` for the URL shapes the crawler stores —
when a "://" separator is present, drop the scheme and the network
location up to the first "/", and cut the path at the first "?" (query) or
"#" (fragment); without a scheme separator the whole string up to "?"/"#"
is the path. -/
def urlPath (u : String) : String :=
  let path :=
    match afterSchemeSep u.toList with
    | some rest => rest.dropWhile fun c => decide (c ≠ '/')
    | none => u.toList
  String.mk ((path.takeWhile fun c => decide (c ≠ '?')).takeWhile
    fun c => decide (c ≠ '#'))

/-- One pattern test of src/main.py lines 357-367: a blank pattern or a
comment (leading `#`, after strip) never matches; a pattern containing `*`
is matched against the URL path with fnmatch; any other pattern matches by
path equality or by prefix after stripping trailing `*`. -/
def matchesPattern (path : String) (pattern : String) : Bool :=
  if pyStrip pattern = "" || pyStartsWith (pyStrip pattern) "#" then false
  else if pyContainsChar pattern '*' then fnmatch path pattern
  else decide (path = pattern) || pyStartsWith path (rstripStar pattern)

/-- src/main.py lines 340-372 (`filter_issues_by_exclusion_patterns`):
with no patterns the issues are returned unchanged; otherwise an issue is
kept iff its URL path matches none of the patterns (the loop with `break`
is an existence test). -/
def filter_issues_by_exclusion_patterns (issues : List IssueRec)
    (exclusion_patterns : List String) : List IssueRec :=
  if exclusion_patterns = [] then issues
  else issues.filter fun issue =>
    !(exclusion_patterns.any fun pattern =>
        matchesPattern (urlPath issue.url) pattern)

/-- src/main.py line 714: `[p.strip() for p in text.split('\n') if
p.strip()]`. -/
def parse_exclusion_patterns (text : String) : List String :=
  (((splitLines text.toList).map fun l => pyStrip (String.mk l)).filter
    fun p => decide (p ≠ ""))

/-- src/main.py lines 679-718 (`crawl_status`): pop the session's
`force_full_refresh` flag (clearing it); when it was not set, slice each
collection at its since-cursor; then pass the resulting issues through the
exclusion-pattern display filter (the code's `if issues:` guard kept
verbatim).  The session's `issueExclusionPatterns` settings text is a
parameter here because SettingsManager lives in src/settings_manager.py,
which is not among the given sources.  Returns the response collections
and the session flag after the poll. -/
def crawl_status (url_since link_since issue_since : Option Nat)
    (force_full_refresh : Bool) (urls : List UrlRec) (links : List LinkRec)
    (issues : List IssueRec) (exclusionText : String) :
    (List UrlRec × List LinkRec × List IssueRec) × Bool :=
  let force_full := force_full_refresh
  let urls2 := if force_full then urls else
    match url_since with
    | some k => urls.drop k
    | none => urls
  let links2 := if force_full then links else
    match link_since with
    | some k => links.drop k
    | none => links
  let issues2 := if force_full then issues else
    match issue_since with
    | some k => issues.drop k
    | none => issues
  let issues3 :=
    if issues2 = [] then issues2
    else filter_issues_by_exclusion_patterns issues2
          (parse_exclusion_patterns exclusionText)
  ((urls2, links2, issues3), false)

/-- Slice a collection at an optional since-cursor. -/
def sliceSince {α : Type} (o : Option Nat) (l : List α) : List α :=
  match o with
  | some k => l.drop k
  | none => l

theorem filter_issues_nil (pats : List String) :
    filter_issues_by_exclusion_patterns [] pats = [] := by
  rw [filter_issues_by_exclusion_patterns]
  by_cases hp : pats = [] <;> simp [hp]

/-- Claim C8 counterexample: a session flagged for a forced full refresh
polls while the session's issue-exclusion patterns contain "/x", and one
loaded issue has URL path "/x".  The flagged poll returns an empty issue
collection, not the full loaded one: the exclusion display filter
(src/main.py 709-716) applies after the force-full branch, so the claim's
"returns the full collections" fails for issues. -/
theorem c8_full_refresh_counterexample :
    (crawl_status (some 0) (some 0) (some 0) true [] []
        [⟨"http://a.com/x", "missing title"⟩] "/x").1.2.2 = []
    ∧ ¬ ((crawl_status (some 0) (some 0) (some 0) true [] []
        [⟨"http://a.com/x", "missing title"⟩] "/x").1.2.2
      = [⟨"http://a.com/x", "missing title"⟩]) := by
  decide

/-- Claim C8 (amended): when the force-full-refresh flag is set, the next
status poll ignores all three since-cursors and returns the full URL and
link collections, and the full issue collection passed through the
session's issue-exclusion display filter; the flag is cleared by the poll.
When the flag is not set and a since-index is supplied, the returned URLs
and links are exactly the full collections from that index onward, and the
returned issues are that slice passed through the same display filter. -/
theorem c8_poll_cursor_contract (url_since link_since issue_since : Option Nat)
    (urls : List UrlRec) (links : List LinkRec) (issues : List IssueRec)
    (exclusionText : String) :
    crawl_status url_since link_since issue_since true urls links issues
        exclusionText
      = ((urls, links,
          filter_issues_by_exclusion_patterns issues
            (parse_exclusion_patterns exclusionText)), false)
    ∧ crawl_status url_since link_since issue_since false urls links issues
        exclusionText
      = ((sliceSince url_since urls, sliceSince link_since links,
          filter_issues_by_exclusion_patterns (sliceSince issue_since issues)
            (parse_exclusion_patterns exclusionText)), false) := by
  have hslice : ∀ {α : Type} (o : Option Nat) (l : List α),
      (match o with
       | some k => l.drop k
       | none => l) = sliceSince o l := by
    intro α o l
    cases o <;> rfl
  constructor
  · rw [crawl_status.eq_def]
    by_cases hi : issues = []
    · subst hi
      simp [filter_issues_nil]
    · simp [hi]
  · rw [crawl_status.eq_def]
    simp only [Bool.false_eq_true, if_false, hslice]
    by_cases hi : sliceSince issue_since issues = []
    · rw [hi]
      simp [filter_issues_nil]
    · simp [hi]
